import Mathlib

/-!
Shallow embedding of app_streamlit_fema_water.py.

The Python source drives a three-stage pipeline:
  build_filter  : filter inputs -> OData-style filter string
  fetch_all     : paginated retrieval loop over a remote source
  is_water_utility / summarize : keyword classification and grouped aggregation

Machine strings are Lean String; Python str.lower / str.upper are modelled by
the ASCII Char.toLower / Char.toUpper maps (all literals in the program are
ASCII); str.strip is modelled by String.trim. Money amounts are rationals.
A pandas DataFrame of award records is modelled as a list of Record values;
missing cells of the textual fields handled by the source (applicant name,
project title, federal share, obligation date) are Option-valued, while the
two always-selected key fields stateAbbreviation and applicantId are plain
strings. The remote HTTP layer is modelled as a list of prepared responses
consumed one per request; JSON payloads are association lists of top-level
fields.
-/

set_option maxRecDepth 2000

/-- Single-quote character, used to build the OData literals of build_filter. -/
def qt : String := String.singleton (Char.ofNat 39)

/-- Python str.lower (ASCII). -/
def lowerStr (s : String) : String := s.map Char.toLower

/-- Python str.upper (ASCII). -/
def upperStr (s : String) : String := s.map Char.toUpper

/-- Python str.strip: drop leading and trailing whitespace. -/
def pyStrip (s : String) : String := s.trim

/-- Does needle occur at the head of hay? -/
def leadEq : List Char → List Char → Bool
  | [], _ => true
  | _ :: _, [] => false
  | a :: as, b :: bs => a == b && leadEq as bs

/-- Does needle occur contiguously anywhere in hay? -/
def hasSub (needle : List Char) : List Char → Bool
  | [] => needle.isEmpty
  | b :: bs => leadEq needle (b :: bs) || hasSub needle bs

/-- Python substring test: needle in hay. -/
def substrIn (needle hay : String) : Bool := hasSub needle.toList hay.toList

/-- Python sep.join(parts). -/
def pyJoin (sep : String) : List String → String
  | [] => ""
  | [x] => x
  | x :: xs => x ++ sep ++ pyJoin sep xs

/-- The incident-type clause of build_filter (lines 29-32 of the source). -/
def incidentClause (incident_contains : Bool) : String :=
  if incident_contains then
    "(substringof(" ++ qt ++ "Fire" ++ qt ++ ",incidentType) or substringof(" ++
      qt ++ "Wildfire" ++ qt ++ ",incidentType))"
  else
    "incidentType eq " ++ qt ++ "Fire" ++ qt

/-- One damage-category disjunct: damageCategoryCode eq 'C' (line 35). -/
def catItem (c : String) : String :=
  "damageCategoryCode eq " ++ qt ++ upperStr (pyStrip c) ++ qt

/-- One state disjunct: stateAbbreviation eq 'XX' (line 40). -/
def stateItem (s : String) : String :=
  "stateAbbreviation eq " ++ qt ++ upperStr (pyStrip s) ++ qt

/-- The " or "-joined damage-category disjunction string cat_or of source
line 35. -/
def catOrStr (categories : List String) : String :=
  pyJoin " or " ((categories.filter (fun c => pyStrip c ≠ "")).map catItem)

/-- The parts list after the incident-type and damage-category steps of
build_filter (source lines 28-37): the category clause joins only when the
categories list is truthy and the joined string cat_or is truthy. -/
def headParts (categories : List String) (incident_contains : Bool) : List String :=
  if categories.isEmpty then [incidentClause incident_contains]
  else if catOrStr categories ≠ "" then
    [incidentClause incident_contains, "(" ++ catOrStr categories ++ ")"]
  else [incidentClause incident_contains]

/-- The parts contributed by the state step of build_filter (source lines
39-42); the states argument is Optional in Python and the empty list is as
falsy as None. -/
def statePartsOf (states : Option (List String)) : List String :=
  match states with
  | none => []
  | some ss =>
    if ss.isEmpty then []
    else
      let state_filters := (ss.filter (fun s => pyStrip s ≠ "")).map stateItem
      if state_filters.isEmpty then []
      else ["(" ++ pyJoin " or " state_filters ++ ")"]

/-- The part contributed by one optional date bound (source lines 43-46);
an empty string is as falsy as None in Python. -/
def datePart (cmp : String) (v : Option String) : List String :=
  match v with
  | none => []
  | some s => if s ≠ "" then ["dateObligated " ++ cmp ++ " " ++ qt ++ s ++ qt] else []

/-- build_filter (source lines 26-47): the sequentially appended parts,
joined with " and ". -/
def build_filter (states : Option (List String)) (start : Option String)
    (end_ : Option String) (categories : List String)
    (incident_contains : Bool) : String :=
  pyJoin " and "
    (headParts categories incident_contains ++ statePartsOf states ++
      datePart "ge" start ++ datePart "le" end_)

/-- One award record as consumed by the classifier and aggregator.  The two
group-key fields that the source reads unconditionally are plain strings;
the fields the source guards against absence (or that it parses leniently)
are Option-valued raw values. -/
structure Record where
  stateAbbreviation : String
  applicantId : String
  applicantName : Option String
  projectTitle : Option String
  federalShareObligated : Option String
  dateObligated : Option String
deriving DecidableEq, Repr

/-- is_water_utility (source lines 94-100).  The Python parameters include
and exclude are renamed incl and excl (include is a Lean keyword). -/
def is_water_utility (row : Record) (incl excl : List String) : Bool :=
  let name := lowerStr (row.applicantName.getD "")
  let title := lowerStr (row.projectTitle.getD "")
  if excl.any (fun x => substrIn x name) then false
  else
    let text := name ++ " " ++ title
    incl.any (fun x => substrIn x text)

/-- Value of an all-digit character list, none if empty or not all digits. -/
def digitsVal (cs : List Char) : Option Nat :=
  if cs.isEmpty then none
  else if cs.all Char.isDigit then
    some (cs.foldl (fun a c => a * 10 + (c.toNat - 48)) 0)
  else none

/-- Decimal-number parser modelling pd.to_numeric on a string cell: optional
sign, then digits with an optional fractional part.  Anything else fails
(and the source then coerces the failure to zero via fillna). -/
def parseDecimal (s : String) : Option ℚ :=
  let core : String → Option ℚ := fun body =>
    match body.splitOn "." with
    | [ip] => (digitsVal ip.toList).map (fun n => (n : ℚ))
    | [ip, fp] =>
      if (ip.toList ++ fp.toList).isEmpty then none
      else if (ip.toList ++ fp.toList).all Char.isDigit then
        some ((((digitsVal ip.toList).getD 0 : Nat) : ℚ) +
          (((digitsVal fp.toList).getD 0 : Nat) : ℚ) / ((10 : ℚ) ^ fp.length))
      else none
    | _ => none
  if s.startsWith "-" then (core (s.drop 1)).map (fun q => -q)
  else if s.startsWith "+" then core (s.drop 1)
  else core s

/-- Parsed federal share of a record: none when the cell is missing or fails
numeric coercion. -/
def shareVal (r : Record) : Option ℚ := r.federalShareObligated.bind parseDecimal

/-- Numeric coercion used by summarize: pd.to_numeric(errors="coerce")
followed by fillna(0.0) (source line 107). -/
def coerceShare (r : Record) : ℚ := (shareVal r).getD 0

/-- ISO calendar-date check modelling the dates pd.to_datetime accepts in
this pipeline (the API serves ISO dates); anything else is coerced to NaT
and excluded from the min/max date extremes. -/
def isIsoDate (s : String) : Bool :=
  match s.toList with
  | [y1, y2, y3, y4, d1, m1, m2, d2, a1, a2] =>
    y1.isDigit && y2.isDigit && y3.isDigit && y4.isDigit &&
    d1 == '-' && m1.isDigit && m2.isDigit && d2 == '-' && a1.isDigit && a2.isDigit
  | _ => false

/-- Obligation dates of a row list that parse successfully.  For fixed-width
ISO dates, lexicographic string order agrees with chronological order, so
the min/max below model the pandas date extremes. -/
def validDates (rows : List Record) : List String :=
  rows.filterMap (fun r => r.dateObligated.bind
    (fun s => if isIsoDate s then some s else none))

/-- A top-level field of a decoded JSON payload: a list of result rows, an
object whose only relevant member is an optional count (the metadata
object), or any other JSON value. -/
inductive PField where
  | jlist (rows : List Record)
  | jobj (count : Option Nat)
  | jother
deriving DecidableEq, Repr

/-- A decoded JSON payload: its top-level fields in document order (JSON
object keys are unique). -/
structure Payload where
  fields : List (String × PField)
deriving DecidableEq, Repr

/-- One prepared HTTP response: status code, raw body text, decoded JSON
payload (the source only decodes the body on status 200). -/
structure Response where
  status : Nat
  body : String
  payload : Payload
deriving DecidableEq, Repr

/-- Rows of the first list-valued top-level field, or the empty list when no
field holds a list (source lines 74-79: data_key stays None and
payload.get(None, []) yields the empty list). -/
def firstListRows (p : Payload) : List Record :=
  match p.fields.find? (fun kv => match kv.2 with | .jlist _ => true | _ => false) with
  | some (_, .jlist rows) => rows
  | _ => []

/-- metadata.count of a payload, defaulting to 0 when the metadata field or
its count member is absent (source lines 80-82). -/
def metaCount (p : Payload) : Nat :=
  match p.fields.find? (fun kv => kv.1 == "metadata") with
  | some (_, .jobj c) => c.getD 0
  | _ => 0

/-- total_count update of one loop iteration: set from the payload only
while still None (source lines 80-82). -/
def tcUpd (tc : Option Nat) (p : Payload) : Option Nat :=
  match tc with
  | none => some (metaCount p)
  | some t => some t

/-- Page size of fetch_all: top = 1000 (source line 51). -/
def TOP : Nat := 1000

/-- Successful outcome of fetch_all: accumulated records, reported total
(total_count or 0), number of requests issued, and the progress fractions
reported to the observer, in order. -/
structure FetchOk where
  records : List Record
  total : Nat
  requests : Nat
  reports : List ℚ
deriving DecidableEq, Repr

/-- Failure outcome of fetch_all: the RuntimeError of source line 72.  It
carries only the offending status and the truncated body excerpt; no rows
accompany it. -/
structure FetchErr where
  status : Nat
  excerpt : String
  requests : Nat
deriving DecidableEq, Repr

/-- Result of a fetch_all run. -/
inductive FetchResult where
  | ok (o : FetchOk)
  | err (e : FetchErr)
deriving DecidableEq, Repr

/-- Add the current request to the request count of a nested outcome. -/
def bumpReq : Option FetchResult → Option FetchResult
  | some (.ok o) => some (.ok ⟨o.records, o.total, o.requests + 1, o.reports⟩)
  | some (.err e) => some (.err ⟨e.status, e.excerpt, e.requests + 1⟩)
  | none => none

/-- Progress reporting of one page (source lines 87-88): when an observer is
attached and total_count is truthy, report min(1, len(records)/max(total,1))
for the n records accumulated so far. -/
def stepReports (hp : Bool) (reps : List ℚ) (t n : Nat) : List ℚ :=
  if hp && (t != 0) then reps ++ [min 1 ((n : ℚ) / (max (t : ℚ) 1))] else reps

/-- The while-loop of fetch_all (source lines 65-90).  The remote source is
a list of prepared responses consumed one per request; none is returned when
the loop would issue more requests than the list provides.  hp is the
presence of a progress observer; skip mirrors the page offset. -/
def fetchGo (hp : Bool) : List Response → Nat → List Record → Option Nat → List ℚ → Option FetchResult
  | [], _, _, _, _ => none
  | r :: rest, skip, acc, tc, reps =>
    if r.status ≠ 200 then
      some (.err ⟨r.status, r.body.take 500, 1⟩)
    else
      let rows := firstListRows r.payload
      let tc' := tcUpd tc r.payload
      if rows.isEmpty then
        some (.ok ⟨acc, tc'.getD 0, 1, reps⟩)
      else
        let acc' := acc ++ rows
        let t := tc'.getD 0
        let reps' := stepReports hp reps t acc'.length
        if rows.length < TOP then
          some (.ok ⟨acc', t, 1, reps'⟩)
        else
          bumpReq (fetchGo hp rest (skip + TOP) acc' tc' reps')

/-- fetch_all (source lines 49-92) against a prepared response list. -/
def fetch_all (hp : Bool) (responses : List Response) : Option FetchResult :=
  fetchGo hp responses 0 [] none []

/-- Composite group key of summarize: (stateAbbreviation, applicantId,
applicantName) (source line 109). -/
def keyOf (r : Record) : String × String × Option String :=
  (r.stateAbbreviation, r.applicantId, r.applicantName)

/-- Keys in first-occurrence order, without duplicates. -/
def firstKeys : List (String × String × Option String) → List (String × String × Option String)
  | [] => []
  | k :: ks => k :: (firstKeys ks).filter (fun k2 => k2 ≠ k)

/-- Ascending order on optional applicant names as pandas sorts a key level
that may contain missing values: missing sorts last. -/
def optNameLe (a b : Option String) : Prop :=
  match a, b with
  | some x, some y => x ≤ y
  | _, none => True
  | none, some _ => False

/-- Strict version of optNameLe. -/
def optNameLt (a b : Option String) : Prop :=
  match a, b with
  | some x, some y => x < y
  | some _, none => True
  | none, _ => False

/-- Ascending lexicographic order on group keys, as groupby(sort=True)
orders the groups (source line 109). -/
def keyLe (a b : String × String × Option String) : Prop :=
  a.1 < b.1 ∨ (a.1 = b.1 ∧ (a.2.1 < b.2.1 ∨ (a.2.1 = b.2.1 ∧ optNameLe a.2.2 b.2.2)))

/-- Strict ascending lexicographic order on group keys. -/
def keyLt (a b : String × String × Option String) : Prop :=
  a.1 < b.1 ∨ (a.1 = b.1 ∧ (a.2.1 < b.2.1 ∨ (a.2.1 = b.2.1 ∧ optNameLt a.2.2 b.2.2)))

instance : DecidableRel optNameLe := fun a b => by
  unfold optNameLe; cases a <;> cases b <;> infer_instance

instance : DecidableRel optNameLt := fun a b => by
  unfold optNameLt; cases a <;> cases b <;> infer_instance

instance : DecidableRel keyLe := fun a b => by unfold keyLe; infer_instance

instance : DecidableRel keyLt := fun a b => by unfold keyLt; infer_instance

/-- One output row of summarize (source lines 109-117). -/
structure SummaryRow where
  state : String
  applicantId : String
  applicantName : Option String
  projectCount : Nat
  totalFederalShareObligated : ℚ
  firstDateObligated : Option String
  lastDateObligated : Option String
deriving DecidableEq, Repr

/-- Group key of a summary row. -/
def rkey (g : SummaryRow) : String × String × Option String :=
  (g.state, g.applicantId, g.applicantName)

/-- The aggregated row of one group key over the classified rows (source
lines 109-114): count of rows, zero-coerced sum of federal shares, and the
date extremes over parseable dates (none models NaT). -/
def mkRow (matched : List Record) (k : String × String × Option String) : SummaryRow :=
  let g := matched.filter (fun r => keyOf r = k)
  { state := k.1
    applicantId := k.2.1
    applicantName := k.2.2
    projectCount := g.length
    totalFederalShareObligated := (g.map coerceShare).sum
    firstDateObligated := (validDates g).min?
    lastDateObligated := (validDates g).max? }

/-- The final sort order of summarize (source line 115): state ascending,
then total federal share descending.  np.lexsort, which pandas uses for a
multi-column sort, is stable. -/
def rowLe2 (a b : SummaryRow) : Prop :=
  a.state < b.state ∨
    (a.state = b.state ∧ b.totalFederalShareObligated ≤ a.totalFederalShareObligated)

instance : DecidableRel rowLe2 := fun a b => by unfold rowLe2; infer_instance

/-- summarize on a non-empty frame: classify, group with sorted group keys,
aggregate, then stable-sort by state ascending and total descending
(source lines 105-118). -/
def summarizeTable (df : List Record) (incl excl : List String) : List SummaryRow :=
  let matched := df.filter (fun r => is_water_utility r incl excl)
  let sortedKeys := List.insertionSort keyLe (firstKeys (matched.map keyOf))
  List.insertionSort rowLe2 (sortedKeys.map (mkRow matched))

/-- Result of summarize: the empty input frame is returned as is, with its
original record schema (source lines 103-104); otherwise a summary table is
produced. -/
inductive SummarizeOutput where
  | raw (df : List Record)
  | table (rows : List SummaryRow)
deriving DecidableEq, Repr

/-- summarize (source lines 102-118). -/
def summarize (df : List Record) (incl excl : List String) : SummarizeOutput :=
  if df.isEmpty then .raw df else .table (summarizeTable df incl excl)

/-- The order the summary table actually realises: state ascending, then
total federal share descending, and — because groupby has already sorted
the group keys and the final sort is stable — ties on (state, total) fall
back to ascending (applicantId, applicantName) key order. -/
def rowOrder (a b : SummaryRow) : Prop :=
  a.state < b.state ∨
    (a.state = b.state ∧
      (b.totalFederalShareObligated < a.totalFederalShareObligated ∨
        (a.totalFederalShareObligated = b.totalFederalShareObligated ∧
          (a.applicantId < b.applicantId ∨
            (a.applicantId = b.applicantId ∧
              optNameLt a.applicantName b.applicantName)))))

/-- A generic record for simulated pages. -/
def rec0 : Record :=
  ⟨"CA", "A1", some "city water", none, some "1", some "2020-01-01"⟩

/-- A simulated successful page of n rows reporting the given total count. -/
def pageResp (n total : Nat) : Response :=
  ⟨200, "",
    ⟨[("metadata", PField.jobj (some total)),
      ("publicAssistanceData", PField.jlist (List.replicate n rec0))]⟩⟩

/-- A simulated successful response whose payload holds no list-valued
top-level field. -/
def noListResp : Response := ⟨200, "", ⟨[("metadata", PField.jobj (some 5))]⟩⟩

/-- A simulated non-success response. -/
def badResp : Response := ⟨500, "service unavailable", ⟨[]⟩⟩

/-- Demo row with a parsable federal share. -/
def rA : Record :=
  ⟨"CA", "A1", some "Alpha Water", none, some "100", some "2020-01-01"⟩

/-- Demo row of the same group with an unparsable federal share. -/
def rB : Record :=
  ⟨"CA", "A1", some "Alpha Water", none, some "not-a-number", some "bogus"⟩

/-- Demo row of a second group, equal state and equal total to the rA group,
discovered before it. -/
def rZ : Record :=
  ⟨"CA", "B2", some "Zeta Water", none, some "100", some "2020-01-02"⟩

theorem pyJoin_cons_cons (sep x y : String) (ys : List String) :
    pyJoin sep (x :: y :: ys) = x ++ sep ++ pyJoin sep (y :: ys) := rfl

theorem pyJoin_length_ge_head (sep x : String) (xs : List String) :
    x.length ≤ (pyJoin sep (x :: xs)).length := by
  cases xs with
  | nil => simp [pyJoin]
  | cons y ys =>
    rw [pyJoin_cons_cons]
    simp only [String.length_append]
    omega

theorem pyJoin_and_insert_longer (inc mid : String) (T : List String) :
    (pyJoin " and " (inc :: T)).length < (pyJoin " and " (inc :: mid :: T)).length := by
  cases T with
  | nil =>
    simp only [pyJoin, String.length_append]
    have h5 : (" and " : String).length = 5 := by decide
    omega
  | cons t ts =>
    rw [pyJoin_cons_cons " and " inc t ts, pyJoin_cons_cons " and " inc mid (t :: ts),
      pyJoin_cons_cons " and " mid t ts]
    simp only [String.length_append]
    have h5 : (" and " : String).length = 5 := by decide
    omega

theorem string_ne_of_length_lt {s t : String} (h : s.length < t.length) : t ≠ s := by
  intro he; rw [he] at h; exact lt_irrefl _ h

theorem headParts_ne (cats : List String) (ic : Bool) (h : cats ≠ []) :
    headParts cats ic =
      if catOrStr cats ≠ "" then
        [incidentClause ic, "(" ++ catOrStr cats ++ ")"]
      else [incidentClause ic] := by
  simp only [headParts]
  rw [if_neg]
  simp [List.isEmpty_iff, h]

theorem headParts_filter (cats : List String) (ic : Bool) :
    headParts (cats.filter (fun c => pyStrip c ≠ "")) ic = headParts cats ic := by
  have hff : (cats.filter (fun c => pyStrip c ≠ "")).filter (fun c => pyStrip c ≠ "") =
      cats.filter (fun c => pyStrip c ≠ "") := by
    rw [List.filter_filter]
    apply List.filter_congr
    intro a _
    rw [Bool.and_self]
  by_cases h1 : cats = []
  · subst h1; rfl
  · by_cases h2 : cats.filter (fun c => pyStrip c ≠ "") = []
    · rw [h2]
      have hco : catOrStr cats = "" := by rw [catOrStr, h2]; rfl
      rw [headParts_ne cats ic h1, if_neg (by simpa using hco)]
      rfl
    · have hco : catOrStr (cats.filter (fun c => pyStrip c ≠ "")) = catOrStr cats := by
        rw [catOrStr, catOrStr, hff]
      rw [headParts_ne _ ic h2, headParts_ne cats ic h1, hco]

theorem statePartsOf_some_ne (ss : List String) (h : ss ≠ []) :
    statePartsOf (some ss) =
      if ((ss.filter (fun s => pyStrip s ≠ "")).map stateItem).isEmpty then []
      else ["(" ++ pyJoin " or " ((ss.filter (fun s => pyStrip s ≠ "")).map stateItem) ++ ")"] := by
  simp only [statePartsOf]
  rw [if_neg]
  simp [List.isEmpty_iff, h]

theorem stateParts_filter (ss : List String) :
    statePartsOf (some (ss.filter (fun s => pyStrip s ≠ ""))) = statePartsOf (some ss) := by
  have hff : (ss.filter (fun s => pyStrip s ≠ "")).filter (fun s => pyStrip s ≠ "") =
      ss.filter (fun s => pyStrip s ≠ "") := by
    rw [List.filter_filter]
    apply List.filter_congr
    intro a _
    rw [Bool.and_self]
  by_cases h1 : ss = []
  · subst h1; rfl
  · by_cases h2 : ss.filter (fun s => pyStrip s ≠ "") = []
    · rw [h2]
      rw [statePartsOf_some_ne ss h1, if_pos (by rw [h2]; rfl)]
      rfl
    · rw [statePartsOf_some_ne _ h2, statePartsOf_some_ne ss h1, hff]

/-- C10: applied to an empty record sequence, summarize returns the empty
input itself, in the raw input schema — not a summary table — so none of
the UtilitySummary columns are produced on empty input (source lines
103-104: if df.empty: return df). -/
theorem summarize_empty_raw_c10 :
    ∀ incl excl : List String, summarize [] incl excl = SummarizeOutput.raw [] := by
  intro incl excl; rfl

/-- C2 counterexample: selecting damage category "A" changes the built
filter expression, so the damage-category selection is not a no-op of
build_filter as the claim states. -/
theorem build_filter_category_noop_cex_c2 :
    build_filter none none none ["A"] false ≠ build_filter none none none [] false :=
  of_decide_eq_true (by with_unfolding_all rfl)

/-- C2 amended: the damage-category selection IS threaded into the built
filter expression: whenever the selection holds at least one non-blank
entry, build_filter emits a damageCategoryCode clause and its output
differs from the output for the empty selection. -/
theorem build_filter_category_threaded_c2 :
    ∀ (states : Option (List String)) (start end_ : Option String)
      (cats : List String) (ic : Bool),
      (∃ c ∈ cats, pyStrip c ≠ "") →
      build_filter states start end_ cats ic ≠ build_filter states start end_ [] ic := by
  intro states start end_ cats ic ⟨c, hc, hcs⟩
  have hmem : c ∈ cats.filter (fun c => pyStrip c ≠ "") :=
    List.mem_filter.2 ⟨hc, by simpa using hcs⟩
  obtain ⟨c0, l0, hl0⟩ := List.exists_cons_of_ne_nil (List.ne_nil_of_mem hmem)
  have hco : catOrStr cats ≠ "" := by
    intro he
    have h1 : (catItem c0).length ≤ (catOrStr cats).length := by
      rw [catOrStr, hl0, List.map_cons]
      exact pyJoin_length_ge_head _ _ _
    rw [he] at h1
    have h2 : 0 < (catItem c0).length := by
      rw [catItem, String.length_append, String.length_append, String.length_append]
      have h22 : ("damageCategoryCode eq " : String).length = 22 := rfl
      omega
    have h0 : ("" : String).length = 0 := rfl
    omega
  have hhp : headParts cats ic =
      [incidentClause ic, "(" ++ catOrStr cats ++ ")"] := by
    have hne : cats ≠ [] := by
      rintro rfl
      exact absurd hc (List.not_mem_nil c)
    simp [headParts, List.isEmpty_iff, hne, hco]
  rw [build_filter, build_filter, hhp]
  have hemp : headParts [] ic = [incidentClause ic] := rfl
  rw [hemp]
  exact string_ne_of_length_lt (by
    rw [List.cons_append, List.cons_append, List.cons_append]
    exact pyJoin_and_insert_longer _ _ _)

/-- C8: blank (empty or whitespace-only) category and state entries are
dropped before clause construction — removing them does not change the
built expression — and when every entry of a list is blank the whole clause
is omitted, the expression equalling the one built with no selection at
all (so no empty parenthesis group is ever emitted).  Surviving entries
enter the clause trimmed and upper-cased (catItem / stateItem). -/
theorem build_filter_blank_entries_c8 :
    (∀ (states : Option (List String)) (start end_ : Option String)
       (cats : List String) (ic : Bool),
       build_filter states start end_ cats ic =
         build_filter states start end_ (cats.filter (fun c => pyStrip c ≠ "")) ic) ∧
    (∀ (ss : List String) (start end_ : Option String)
       (cats : List String) (ic : Bool),
       build_filter (some ss) start end_ cats ic =
         build_filter (some (ss.filter (fun s => pyStrip s ≠ ""))) start end_ cats ic) ∧
    (∀ (states : Option (List String)) (start end_ : Option String)
       (cats : List String) (ic : Bool),
       (∀ c ∈ cats, pyStrip c = "") →
       build_filter states start end_ cats ic = build_filter states start end_ [] ic) ∧
    (∀ (ss : List String) (start end_ : Option String)
       (cats : List String) (ic : Bool),
       (∀ s ∈ ss, pyStrip s = "") →
       build_filter (some ss) start end_ cats ic = build_filter none start end_ cats ic) := by
  refine ⟨?_, ?_, ?_, ?_⟩
  · intro states start end_ cats ic
    rw [build_filter, build_filter, headParts_filter]
  · intro ss start end_ cats ic
    rw [build_filter, build_filter, stateParts_filter]
  · intro states start end_ cats ic hbl
    have hfil : cats.filter (fun c => pyStrip c ≠ "") = [] := by
      rw [List.filter_eq_nil_iff]
      intro a ha
      simp [hbl a ha]
    rw [build_filter, build_filter, ← headParts_filter, hfil]
  · intro ss start end_ cats ic hbl
    have hfil : ss.filter (fun s => pyStrip s ≠ "") = [] := by
      rw [List.filter_eq_nil_iff]
      intro a ha
      simp [hbl a ha]
    rw [build_filter, build_filter, ← stateParts_filter, hfil]
    rfl

/-- C8 witness at concrete inputs: a blank category and state list is
dropped and omits the clauses entirely. -/
theorem build_filter_blank_entries_c8_witness :
    build_filter (some [" ", ""]) (some "2020-01-01") none [" ", ""] true =
      build_filter (some [" ", ""]) (some "2020-01-01") none [] true ∧
    build_filter (some [" ", ""]) (some "2020-01-01") none [] true =
      build_filter none (some "2020-01-01") none [] true :=
  ⟨build_filter_blank_entries_c8.2.2.1 (some [" ", ""]) (some "2020-01-01") none
      [" ", ""] true (of_decide_eq_true (by with_unfolding_all rfl)),
   build_filter_blank_entries_c8.2.2.2 [" ", ""] (some "2020-01-01") none [] true
      (of_decide_eq_true (by with_unfolding_all rfl))⟩

/-- C2 witness: a concrete criteria set with a non-blank category entry on
which the two expressions differ. -/
theorem build_filter_category_threaded_c2_witness :
    build_filter (some ["CA"]) (some "2020-01-01") none ["b"] true ≠
      build_filter (some ["CA"]) (some "2020-01-01") none [] true :=
  build_filter_category_threaded_c2 (some ["CA"]) (some "2020-01-01") none ["b"] true
    ⟨"b", by decide, of_decide_eq_true (by with_unfolding_all rfl)⟩

/-- C3: for pre-normalized (trimmed, lower-case, non-empty) keyword lists,
is_water_utility rejects a row as soon as some exclude keyword occurs in the
lower-cased applicant name, regardless of include matches; otherwise it
accepts exactly when some include keyword occurs in the space-joined
concatenation of lower-cased name and title; an empty include list never
matches (source lines 94-100). -/
theorem classifier_policy_c3 :
    ∀ (r : Record) (incl excl : List String),
      (∀ k ∈ incl, pyStrip k = k ∧ lowerStr k = k ∧ k ≠ "") →
      (∀ k ∈ excl, pyStrip k = k ∧ lowerStr k = k ∧ k ≠ "") →
      ((∃ x ∈ excl, substrIn x (lowerStr (r.applicantName.getD "")) = true) →
          is_water_utility r incl excl = false) ∧
      ((∀ x ∈ excl, substrIn x (lowerStr (r.applicantName.getD "")) = false) →
          (is_water_utility r incl excl = true ↔
            ∃ x ∈ incl, substrIn x (lowerStr (r.applicantName.getD "") ++ " " ++
              lowerStr (r.projectTitle.getD "")) = true)) ∧
      (incl = [] → is_water_utility r incl excl = false) := by
  intro r incl excl _ _
  refine ⟨?_, ?_, ?_⟩
  · intro hex
    rw [is_water_utility, if_pos (List.any_eq_true.2 hex)]
  · intro hnone
    have hfalse : excl.any (fun x => substrIn x (lowerStr (r.applicantName.getD ""))) ≠ true := by
      intro hA
      obtain ⟨x, hx, hsub⟩ := List.any_eq_true.1 hA
      rw [hnone x hx] at hsub
      exact Bool.false_ne_true hsub
    rw [is_water_utility, if_neg hfalse, List.any_eq_true]
  · rintro rfl
    rw [is_water_utility]
    split
    · rfl
    · rfl

/-- C3 witness: the spec examples — applicant name "City Water Department"
with include {"water"} matches when the exclude list is empty, and is
rejected when the exclude list is {"city"}. -/
theorem classifier_policy_c3_witness :
    is_water_utility ⟨"CA", "A1", some "City Water Department", none, none, none⟩
        ["water"] [] = true ∧
    is_water_utility ⟨"CA", "A1", some "City Water Department", none, none, none⟩
        ["water"] ["city"] = false := by
  constructor
  · exact ((classifier_policy_c3 ⟨"CA", "A1", some "City Water Department", none, none, none⟩
      ["water"] [] (of_decide_eq_true (by with_unfolding_all rfl)) (by intro k hk; cases hk)).2.1
      (by intro x hx; cases hx)).2
      ⟨"water", by decide, of_decide_eq_true (by with_unfolding_all rfl)⟩
  · exact (classifier_policy_c3 ⟨"CA", "A1", some "City Water Department", none, none, none⟩
      ["water"] ["city"] (of_decide_eq_true (by with_unfolding_all rfl))
      (of_decide_eq_true (by with_unfolding_all rfl))).1
      ⟨"city", by decide, of_decide_eq_true (by with_unfolding_all rfl)⟩

theorem fetchGo_nil (hp : Bool) (skip : Nat) (acc : List Record) (tc : Option Nat)
    (reps : List ℚ) : fetchGo hp [] skip acc tc reps = none := rfl

theorem fetchGo_cons_err (hp : Bool) (r : Response) (rest : List Response) (skip : Nat)
    (acc : List Record) (tc : Option Nat) (reps : List ℚ) (h : r.status ≠ 200) :
    fetchGo hp (r :: rest) skip acc tc reps =
      some (FetchResult.err ⟨r.status, r.body.take 500, 1⟩) := by
  simp only [fetchGo]
  rw [if_pos h]

theorem fetchGo_cons_empty (hp : Bool) (r : Response) (rest : List Response) (skip : Nat)
    (acc : List Record) (tc : Option Nat) (reps : List ℚ) (h : r.status = 200)
    (he : firstListRows r.payload = []) :
    fetchGo hp (r :: rest) skip acc tc reps =
      some (FetchResult.ok ⟨acc, (tcUpd tc r.payload).getD 0, 1, reps⟩) := by
  simp only [fetchGo]
  rw [if_neg (by rw [h]; exact fun hh => hh rfl), he]
  rfl

theorem fetchGo_cons_short (hp : Bool) (r : Response) (rest : List Response) (skip : Nat)
    (acc : List Record) (tc : Option Nat) (reps : List ℚ) (h : r.status = 200)
    (hne : firstListRows r.payload ≠ []) (hlt : (firstListRows r.payload).length < TOP) :
    fetchGo hp (r :: rest) skip acc tc reps =
      some (FetchResult.ok ⟨acc ++ firstListRows r.payload, (tcUpd tc r.payload).getD 0, 1,
        stepReports hp reps ((tcUpd tc r.payload).getD 0)
          (acc ++ firstListRows r.payload).length⟩) := by
  simp only [fetchGo]
  rw [if_neg (by rw [h]; exact fun hh => hh rfl),
    if_neg (by simpa [List.isEmpty_iff] using hne), if_pos hlt]

theorem fetchGo_cons_cont (hp : Bool) (r : Response) (rest : List Response) (skip : Nat)
    (acc : List Record) (tc : Option Nat) (reps : List ℚ) (h : r.status = 200)
    (hge : TOP ≤ (firstListRows r.payload).length) :
    fetchGo hp (r :: rest) skip acc tc reps =
      bumpReq (fetchGo hp rest (skip + TOP) (acc ++ firstListRows r.payload)
        (tcUpd tc r.payload)
        (stepReports hp reps ((tcUpd tc r.payload).getD 0)
          (acc ++ firstListRows r.payload).length)) := by
  have hne : firstListRows r.payload ≠ [] := by
    intro hnil
    rw [hnil] at hge
    have : TOP = 1000 := rfl
    simp [this] at hge
  simp only [fetchGo]
  rw [if_neg (by rw [h]; exact fun hh => hh rfl),
    if_neg (by simpa [List.isEmpty_iff] using hne), if_neg (by omega)]

/-- C1 counterexample: a successful response whose payload holds no
list-valued top-level field makes fetch_all return successfully with an
empty record set (data_key stays None, payload.get(None, []) gives the
empty list and the loop breaks) — it does not fail, and it does return an
empty result set. -/
theorem fetch_no_list_field_cex_c1 :
    fetch_all false [noListResp] = some (FetchResult.ok ⟨[], 5, 1, []⟩) :=
  of_decide_eq_true (by with_unfolding_all rfl)

/-- C1 amended: on a 200 response whose payload holds no list-valued
top-level field, fetch_all terminates at once treating the page as empty
and returns an ok result with no records and the metadata count as total;
no structural-mismatch error exists anywhere in fetch_all. -/
theorem fetch_no_list_field_c1 :
    ∀ (hp : Bool) (r : Response) (rest : List Response),
      r.status = 200 →
      (∀ kv ∈ r.payload.fields, ∀ rows, kv.2 ≠ PField.jlist rows) →
      fetch_all hp (r :: rest) =
        some (FetchResult.ok ⟨[], metaCount r.payload, 1, []⟩) := by
  intro hp r rest hst hnl
  have hfind : r.payload.fields.find?
      (fun kv => match kv.2 with | .jlist _ => true | _ => false) = none := by
    rw [List.find?_eq_none]
    intro kv hkv
    cases hv : kv.2 with
    | jlist rows => exact absurd hv (hnl kv hkv rows)
    | jobj c => simp
    | jother => simp
  have hrows : firstListRows r.payload = [] := by rw [firstListRows, hfind]
  rw [fetch_all, fetchGo_cons_empty hp r rest 0 [] none [] hst hrows]
  rfl

/-- C1 witness: the amended statement at the concrete no-list payload. -/
theorem fetch_no_list_field_c1_witness :
    fetch_all true [noListResp] = some (FetchResult.ok ⟨[], 5, 1, []⟩) :=
  fetch_no_list_field_c1 true noListResp [] rfl
    (by
      intro kv hkv rows
      simp only [noListResp, List.mem_singleton] at hkv
      subst hkv
      simp)

theorem fetchGo_ok_statuses (hp : Bool) (rs : List Response) :
    ∀ (skip : Nat) (acc : List Record) (tc : Option Nat) (reps : List ℚ) (o : FetchOk),
      fetchGo hp rs skip acc tc reps = some (FetchResult.ok o) →
      ∀ i, i < o.requests → ∀ resp, rs.get? i = some resp → resp.status = 200 := by
  induction rs with
  | nil =>
    intro skip acc tc reps o h
    rw [fetchGo_nil] at h
    cases h
  | cons r rest ih =>
    intro skip acc tc reps o h i hreq resp hget
    by_cases hst : r.status = 200
    · by_cases he : firstListRows r.payload = []
      · rw [fetchGo_cons_empty hp r rest skip acc tc reps hst he] at h
        obtain rfl := (FetchResult.ok.inj (Option.some.inj h)).symm
        have hi : i = 0 := by
          simp only at hreq
          omega
        subst hi
        obtain rfl := Option.some.inj hget
        exact hst
      · by_cases hlt : (firstListRows r.payload).length < TOP
        · rw [fetchGo_cons_short hp r rest skip acc tc reps hst he hlt] at h
          obtain rfl := (FetchResult.ok.inj (Option.some.inj h)).symm
          have hi : i = 0 := by
            simp only at hreq
            omega
          subst hi
          obtain rfl := Option.some.inj hget
          exact hst
        · rw [fetchGo_cons_cont hp r rest skip acc tc reps hst (by omega)] at h
          cases hin : fetchGo hp rest (skip + TOP) (acc ++ firstListRows r.payload)
              (tcUpd tc r.payload)
              (stepReports hp reps ((tcUpd tc r.payload).getD 0)
                (acc ++ firstListRows r.payload).length) with
          | none => rw [hin] at h; cases h
          | some fr =>
            cases fr with
            | err e => rw [hin] at h; cases h
            | ok o' =>
              rw [hin] at h
              obtain rfl := (FetchResult.ok.inj (Option.some.inj h)).symm
              cases i with
              | zero =>
                obtain rfl := Option.some.inj hget
                exact hst
              | succ j =>
                have hjr : j < o'.requests := by
                  simp only at hreq
                  omega
                exact ih (skip + TOP) (acc ++ firstListRows r.payload)
                  (tcUpd tc r.payload) _ o' hin j hjr resp hget
    · rw [fetchGo_cons_err hp r rest skip acc tc reps hst] at h
      cases h

theorem fetchGo_err_shape (hp : Bool) (rs : List Response) :
    ∀ (skip : Nat) (acc : List Record) (tc : Option Nat) (reps : List ℚ) (e : FetchErr),
      fetchGo hp rs skip acc tc reps = some (FetchResult.err e) →
      ∃ n bad, e = ⟨bad.status, bad.body.take 500, n + 1⟩ ∧
        rs.get? n = some bad ∧ bad.status ≠ 200 := by
  induction rs with
  | nil =>
    intro skip acc tc reps e h
    rw [fetchGo_nil] at h
    cases h
  | cons r rest ih =>
    intro skip acc tc reps e h
    by_cases hst : r.status = 200
    · by_cases he : firstListRows r.payload = []
      · rw [fetchGo_cons_empty hp r rest skip acc tc reps hst he] at h
        cases h
      · by_cases hlt : (firstListRows r.payload).length < TOP
        · rw [fetchGo_cons_short hp r rest skip acc tc reps hst he hlt] at h
          cases h
        · rw [fetchGo_cons_cont hp r rest skip acc tc reps hst (by omega)] at h
          cases hin : fetchGo hp rest (skip + TOP) (acc ++ firstListRows r.payload)
              (tcUpd tc r.payload)
              (stepReports hp reps ((tcUpd tc r.payload).getD 0)
                (acc ++ firstListRows r.payload).length) with
          | none => rw [hin] at h; cases h
          | some fr =>
            cases fr with
            | ok o' => rw [hin] at h; cases h
            | err e' =>
              rw [hin] at h
              obtain rfl := (FetchResult.err.inj (Option.some.inj h)).symm
              obtain ⟨n, bad, he', hg, hb⟩ :=
                ih (skip + TOP) (acc ++ firstListRows r.payload) (tcUpd tc r.payload) _ e' hin
              refine ⟨n + 1, bad, ?_, hg, hb⟩
              rw [he']
    · rw [fetchGo_cons_err hp r rest skip acc tc reps hst] at h
      obtain rfl := (FetchResult.err.inj (Option.some.inj h)).symm
      exact ⟨0, r, rfl, rfl, hst⟩

theorem fetchGo_none_statuses (hp : Bool) (rs : List Response) :
    ∀ (skip : Nat) (acc : List Record) (tc : Option Nat) (reps : List ℚ),
      fetchGo hp rs skip acc tc reps = none →
      ∀ resp ∈ rs, resp.status = 200 := by
  induction rs with
  | nil =>
    intro skip acc tc reps _ resp hresp
    cases hresp
  | cons r rest ih =>
    intro skip acc tc reps h resp hresp
    by_cases hst : r.status = 200
    · by_cases he : firstListRows r.payload = []
      · rw [fetchGo_cons_empty hp r rest skip acc tc reps hst he] at h
        cases h
      · by_cases hlt : (firstListRows r.payload).length < TOP
        · rw [fetchGo_cons_short hp r rest skip acc tc reps hst he hlt] at h
          cases h
        · rw [fetchGo_cons_cont hp r rest skip acc tc reps hst (by omega)] at h
          cases hin : fetchGo hp rest (skip + TOP) (acc ++ firstListRows r.payload)
              (tcUpd tc r.payload)
              (stepReports hp reps ((tcUpd tc r.payload).getD 0)
                (acc ++ firstListRows r.payload).length) with
          | some fr => rw [hin] at h; cases fr <;> simp [bumpReq] at h
          | none =>
            cases hresp with
            | head => exact hst
            | tail _ hmem =>
              exact ih (skip + TOP) (acc ++ firstListRows r.payload)
                (tcUpd tc r.payload) _ hin resp hmem
    · rw [fetchGo_cons_err hp r rest skip acc tc reps hst] at h
      cases h

theorem stepReports_false (reps : List ℚ) (t n : Nat) :
    stepReports false reps t n = reps := by
  simp [stepReports]

theorem firstListRows_pageResp (n total : Nat) :
    firstListRows (pageResp n total).payload = List.replicate n rec0 := rfl

theorem metaCount_pageResp (n total : Nat) :
    metaCount (pageResp n total).payload = total := rfl

theorem fetch_pages_err :
    fetch_all false [pageResp 1000 2400, badResp] =
      some (FetchResult.err ⟨500, badResp.body.take 500, 2⟩) := by
  rw [fetch_all, fetchGo_cons_cont false _ _ 0 [] none [] rfl
    (by rw [firstListRows_pageResp, List.length_replicate]; decide),
    fetchGo_cons_err false badResp [] _ _ _ _ (by decide)]
  simp only [bumpReq]
  rfl

theorem fetch_pages3 :
    fetch_all false [pageResp 1000 2400, pageResp 1000 2400, pageResp 400 2400] =
      some (FetchResult.ok ⟨List.replicate 2400 rec0, 2400, 3, []⟩) := by
  rw [fetch_all, fetchGo_cons_cont false _ _ 0 [] none [] rfl
      (by rw [firstListRows_pageResp, List.length_replicate]; decide),
    fetchGo_cons_cont false _ _ _ _ _ _ rfl
      (by rw [firstListRows_pageResp, List.length_replicate]; decide),
    fetchGo_cons_short false _ _ _ _ _ _ rfl
      (by rw [firstListRows_pageResp]; simp)
      (by rw [firstListRows_pageResp, List.length_replicate]; decide)]
  rw [stepReports_false, stepReports_false, stepReports_false]
  simp only [bumpReq, List.nil_append, List.append_assoc, firstListRows_pageResp]
  rw [← List.replicate_add, ← List.replicate_add]
  rfl

/-- C4: a non-success status aborts the whole fetch.  First conjunct: on a
successful outcome every issued request (request index below the request
count) had status 200 — so a non-success status among the issued requests
rules out a successful outcome and no rows are surfaced (the RuntimeError of
line 72 carries no rows, and FetchErr has no record field).  Second
conjunct: an error outcome carries exactly the status code of the offending
response and its body truncated to 500 characters, and excludes a
successful outcome for the same input (all-or-nothing).  Third conjunct:
when the loop exhausts the prepared responses without terminating, every
prepared response had status 200, so a non-success response among them is
impossible on that path; together the conjuncts say a non-success status
among the issued requests forces the error outcome.  No retry exists:
request n is issued at most once, answered by the n-th prepared response. -/
theorem fetch_abort_c4 :
    (∀ (hp : Bool) (rs : List Response) (o : FetchOk),
       fetch_all hp rs = some (FetchResult.ok o) →
       ∀ i, i < o.requests → ∀ resp, rs.get? i = some resp → resp.status = 200) ∧
    (∀ (hp : Bool) (rs : List Response) (e : FetchErr),
       fetch_all hp rs = some (FetchResult.err e) →
       (∃ n bad, e = ⟨bad.status, bad.body.take 500, n + 1⟩ ∧
         rs.get? n = some bad ∧ bad.status ≠ 200) ∧
       ∀ o, fetch_all hp rs ≠ some (FetchResult.ok o)) ∧
    (∀ (hp : Bool) (rs : List Response),
       fetch_all hp rs = none → ∀ resp ∈ rs, resp.status = 200) := by
  refine ⟨?_, ?_, ?_⟩
  · intro hp rs o h
    exact fetchGo_ok_statuses hp rs 0 [] none [] o h
  · intro hp rs e h
    refine ⟨fetchGo_err_shape hp rs 0 [] none [] e h, ?_⟩
    intro o ho
    rw [h] at ho
    cases ho
  · intro hp rs h
    exact fetchGo_none_statuses hp rs 0 [] none [] h

/-- C4 witness: a full first page followed by a 500 response aborts the
fetch with the 500 status and truncated body, and no ok outcome exists. -/
theorem fetch_abort_c4_witness :
    (∃ n bad, (⟨500, badResp.body.take 500, 2⟩ : FetchErr) =
        ⟨bad.status, bad.body.take 500, n + 1⟩ ∧
      [pageResp 1000 2400, badResp].get? n = some bad ∧ bad.status ≠ 200) ∧
    ∀ o, fetch_all false [pageResp 1000 2400, badResp] ≠ some (FetchResult.ok o) :=
  fetch_abort_c4.2.1 false [pageResp 1000 2400, badResp]
    ⟨500, badResp.body.take 500, 2⟩ fetch_pages_err

/-- C5: with the fixed page size of 1000, three simulated pages of sizes
1000, 1000, 400 make fetch_all issue exactly 3 requests and accumulate
exactly 2400 records.  In general (remaining conjuncts, stated per loop
iteration): a page of zero rows stops at once without accumulating; a
non-empty page shorter than the page size stops after accumulating; any
other page is accumulated and the loop continues with the offset advanced
by the page size (skip + TOP). -/
theorem fetch_pagination_c5 :
    (fetch_all false [pageResp 1000 2400, pageResp 1000 2400, pageResp 400 2400] =
      some (FetchResult.ok ⟨List.replicate 2400 rec0, 2400, 3, []⟩)) ∧
    (∀ (hp : Bool) (r : Response) (rest : List Response) (skip : Nat) (acc : List Record)
       (tc : Option Nat) (reps : List ℚ), r.status = 200 → firstListRows r.payload = [] →
       fetchGo hp (r :: rest) skip acc tc reps =
         some (FetchResult.ok ⟨acc, (tcUpd tc r.payload).getD 0, 1, reps⟩)) ∧
    (∀ (hp : Bool) (r : Response) (rest : List Response) (skip : Nat) (acc : List Record)
       (tc : Option Nat) (reps : List ℚ), r.status = 200 → firstListRows r.payload ≠ [] →
       (firstListRows r.payload).length < TOP →
       fetchGo hp (r :: rest) skip acc tc reps =
         some (FetchResult.ok ⟨acc ++ firstListRows r.payload, (tcUpd tc r.payload).getD 0, 1,
           stepReports hp reps ((tcUpd tc r.payload).getD 0)
             (acc ++ firstListRows r.payload).length⟩)) ∧
    (∀ (hp : Bool) (r : Response) (rest : List Response) (skip : Nat) (acc : List Record)
       (tc : Option Nat) (reps : List ℚ), r.status = 200 →
       TOP ≤ (firstListRows r.payload).length →
       fetchGo hp (r :: rest) skip acc tc reps =
         bumpReq (fetchGo hp rest (skip + TOP) (acc ++ firstListRows r.payload)
           (tcUpd tc r.payload)
           (stepReports hp reps ((tcUpd tc r.payload).getD 0)
             (acc ++ firstListRows r.payload).length))) :=
  ⟨fetch_pages3,
   fun hp r rest skip acc tc reps h he => fetchGo_cons_empty hp r rest skip acc tc reps h he,
   fun hp r rest skip acc tc reps h hne hlt =>
     fetchGo_cons_short hp r rest skip acc tc reps h hne hlt,
   fun hp r rest skip acc tc reps h hge => fetchGo_cons_cont hp r rest skip acc tc reps h hge⟩

/-- C5 witness: the three per-iteration conjuncts applied at concrete
pages — an empty page stops with the accumulator unchanged, a short page
stops after accumulating, and a full page recurses with skip advanced by
1000 (here exhausting the prepared list). -/
theorem fetch_pagination_c5_witness :
    fetchGo false [noListResp] 5 [rec0] (some 7) [] =
        some (FetchResult.ok ⟨[rec0], 7, 1, []⟩) ∧
    fetchGo false [pageResp 2 5] 0 [] none [] =
        some (FetchResult.ok ⟨List.replicate 2 rec0, 5, 1, []⟩) ∧
    fetchGo false [pageResp 1000 2400] 0 [] none [] = none :=
  ⟨fetch_pagination_c5.2.1 false noListResp [] 5 [rec0] (some 7) [] rfl
      (of_decide_eq_true (by with_unfolding_all rfl)),
   fetch_pagination_c5.2.2.1 false (pageResp 2 5) [] 0 [] none [] rfl
      (by rw [firstListRows_pageResp]; simp)
      (by rw [firstListRows_pageResp, List.length_replicate]; decide),
   (fetch_pagination_c5.2.2.2 false (pageResp 1000 2400) [] 0 [] none [] rfl
      (by rw [firstListRows_pageResp, List.length_replicate]; decide)).trans rfl⟩

theorem tcUpd_some (t : Nat) (p : Payload) : tcUpd (some t) p = some t := rfl

theorem tcUpd_none (p : Payload) : tcUpd none p = some (metaCount p) := rfl

theorem stepReports_inv (hp : Bool) (t : Nat) (reps : List ℚ) (m n : Nat)
    (hmn : m ≤ n) (hpw : List.Pairwise (· ≤ ·) reps)
    (hin : ∀ q ∈ reps, hp = true ∧ 0 < t ∧
      ∃ k, k ≤ m ∧ q = min 1 ((k : ℚ) / max (t : ℚ) 1)) :
    List.Pairwise (· ≤ ·) (stepReports hp reps t n) ∧
    (∀ q ∈ stepReports hp reps t n, hp = true ∧ 0 < t ∧
      ∃ k, k ≤ n ∧ q = min 1 ((k : ℚ) / max (t : ℚ) 1)) := by
  rw [stepReports]
  by_cases hc : (hp && (t != 0)) = true
  · obtain ⟨hhp, ht⟩ := Bool.and_eq_true_iff.1 hc
    have htpos : 0 < t := Nat.pos_of_ne_zero (by simpa using ht)
    have hmax : (0 : ℚ) < max (t : ℚ) 1 := lt_of_lt_of_le zero_lt_one (le_max_right _ 1)
    rw [if_pos hc]
    have hbound : ∀ q ∈ reps, q ≤ min 1 ((n : ℚ) / max (t : ℚ) 1) := by
      intro q hq
      obtain ⟨_, _, k, hk, rfl⟩ := hin q hq
      refine min_le_min (le_refl 1) ?_
      exact (div_le_div_iff_of_pos_right hmax).2 (by exact_mod_cast le_trans hk hmn)
    constructor
    · rw [List.pairwise_append]
      exact ⟨hpw, List.pairwise_singleton _ _, by
        intro a ha b hb
        rw [List.mem_singleton] at hb
        subst hb
        exact hbound a ha⟩
    · intro q hq
      rcases List.mem_append.1 hq with hql | hqr
      · obtain ⟨h1, h2, k, hk, hqe⟩ := hin q hql
        exact ⟨h1, h2, k, le_trans hk hmn, hqe⟩
      · rw [List.mem_singleton] at hqr
        subst hqr
        exact ⟨hhp, htpos, n, le_refl n, rfl⟩
  · rw [if_neg hc]
    refine ⟨hpw, ?_⟩
    intro q hq
    obtain ⟨h1, h2, k, hk, hqe⟩ := hin q hq
    exact ⟨h1, h2, k, le_trans hk hmn, hqe⟩

theorem fetchGo_reports (hp : Bool) (t : Nat) (rs : List Response) :
    ∀ (skip : Nat) (acc : List Record) (reps : List ℚ) (o : FetchOk),
      fetchGo hp rs skip acc (some t) reps = some (FetchResult.ok o) →
      List.Pairwise (· ≤ ·) reps →
      (∀ q ∈ reps, hp = true ∧ 0 < t ∧
        ∃ n, n ≤ acc.length ∧ q = min 1 ((n : ℚ) / max (t : ℚ) 1)) →
      o.total = t ∧ acc.length ≤ o.records.length ∧ List.Pairwise (· ≤ ·) o.reports ∧
      (∀ q ∈ o.reports, hp = true ∧ 0 < t ∧
        ∃ n, n ≤ o.records.length ∧ q = min 1 ((n : ℚ) / max (t : ℚ) 1)) := by
  induction rs with
  | nil =>
    intro skip acc reps o h
    rw [fetchGo_nil] at h
    cases h
  | cons r rest ih =>
    intro skip acc reps o h hpw hin
    by_cases hst : r.status = 200
    · by_cases he : firstListRows r.payload = []
      · rw [fetchGo_cons_empty hp r rest skip acc (some t) reps hst he] at h
        obtain rfl := (FetchResult.ok.inj (Option.some.inj h)).symm
        exact ⟨rfl, le_refl _, hpw, hin⟩
      · have hlen : acc.length ≤ (acc ++ firstListRows r.payload).length := by
          rw [List.length_append]
          omega
        have hstep := stepReports_inv hp t reps acc.length
          (acc ++ firstListRows r.payload).length hlen hpw hin
        by_cases hlt : (firstListRows r.payload).length < TOP
        · rw [fetchGo_cons_short hp r rest skip acc (some t) reps hst he hlt] at h
          obtain rfl := (FetchResult.ok.inj (Option.some.inj h)).symm
          exact ⟨rfl, hlen, hstep.1, hstep.2⟩
        · rw [fetchGo_cons_cont hp r rest skip acc (some t) reps hst (by omega),
            tcUpd_some] at h
          cases hin2 : fetchGo hp rest (skip + TOP) (acc ++ firstListRows r.payload)
              (some t)
              (stepReports hp reps ((some t : Option Nat).getD 0)
                (acc ++ firstListRows r.payload).length) with
          | none => rw [hin2] at h; cases h
          | some fr =>
            cases fr with
            | err e => rw [hin2] at h; cases h
            | ok o' =>
              rw [hin2] at h
              obtain rfl := (FetchResult.ok.inj (Option.some.inj h)).symm
              obtain ⟨ht', hlen', hpw', hin'⟩ :=
                ih (skip + TOP) (acc ++ firstListRows r.payload) _ o' hin2
                  hstep.1 hstep.2
              exact ⟨ht', le_trans hlen hlen', hpw', hin'⟩
    · rw [fetchGo_cons_err hp r rest skip acc (some t) reps hst] at h
      cases h

/-- C9: across one fetch_all run the sequence of reported progress
fractions is monotonically non-decreasing, and a fraction is reported only
when an observer is attached and the obtained total_count is truthy
(non-zero); every reported value has the form
min(1, n / max(total, 1)) for some accumulated record count n bounded by
the final record count (source lines 87-88).  No report is ever made
otherwise. -/
theorem fetch_progress_c9 :
    ∀ (hp : Bool) (rs : List Response) (o : FetchOk),
      fetch_all hp rs = some (FetchResult.ok o) →
      List.Pairwise (· ≤ ·) o.reports ∧
      ∀ q ∈ o.reports, hp = true ∧ 0 < o.total ∧
        ∃ n, n ≤ o.records.length ∧ q = min 1 ((n : ℚ) / max ((o.total : Nat) : ℚ) 1) := by
  intro hp rs o h
  cases rs with
  | nil =>
    rw [fetch_all, fetchGo_nil] at h
    cases h
  | cons r rest =>
    rw [fetch_all] at h
    by_cases hst : r.status = 200
    · by_cases he : firstListRows r.payload = []
      · rw [fetchGo_cons_empty hp r rest 0 [] none [] hst he] at h
        obtain rfl := (FetchResult.ok.inj (Option.some.inj h)).symm
        exact ⟨List.Pairwise.nil, by intro q hq; cases hq⟩
      · have hstep := stepReports_inv hp (metaCount r.payload) [] 0
          ([] ++ firstListRows r.payload).length (Nat.zero_le _) List.Pairwise.nil
          (by intro q hq; cases hq)
        by_cases hlt : (firstListRows r.payload).length < TOP
        · rw [fetchGo_cons_short hp r rest 0 [] none [] hst he hlt] at h
          obtain rfl := (FetchResult.ok.inj (Option.some.inj h)).symm
          exact ⟨hstep.1, hstep.2⟩
        · rw [fetchGo_cons_cont hp r rest 0 [] none [] hst (by omega), tcUpd_none] at h
          cases hin2 : fetchGo hp rest (0 + TOP) ([] ++ firstListRows r.payload)
              (some (metaCount r.payload))
              (stepReports hp [] ((some (metaCount r.payload) : Option Nat).getD 0)
                ([] ++ firstListRows r.payload).length) with
          | none => rw [hin2] at h; cases h
          | some fr =>
            cases fr with
            | err e => rw [hin2] at h; cases h
            | ok o' =>
              rw [hin2] at h
              obtain rfl := (FetchResult.ok.inj (Option.some.inj h)).symm
              obtain ⟨ht', _, hpw', hin'⟩ :=
                fetchGo_reports hp (metaCount r.payload) rest (0 + TOP)
                  ([] ++ firstListRows r.payload) _ o' hin2 hstep.1 hstep.2
              refine ⟨hpw', ?_⟩
              intro q hq
              obtain ⟨h1, h2, n, hn, hqe⟩ := hin' q hq
              exact ⟨h1, by rw [show (FetchOk.mk o'.records o'.total (o'.requests + 1)
                o'.reports).total = o'.total from rfl, ht']; exact h2,
                n, hn, by rw [show (FetchOk.mk o'.records o'.total (o'.requests + 1)
                  o'.reports).total = o'.total from rfl, ht']; exact hqe⟩
    · rw [fetchGo_cons_err hp r rest 0 [] none [] hst] at h
      cases h

/-- C9 witness: a three-page run with an observer reports the fractions
5/12, 5/6, 1, which are non-decreasing and of the stated form. -/
theorem fetch_progress_c9_witness :
    List.Pairwise (· ≤ ·) [(5 : ℚ)/12, (5 : ℚ)/6, 1] ∧
    ∀ q ∈ [(5 : ℚ)/12, (5 : ℚ)/6, 1], true = true ∧ 0 < 2400 ∧
      ∃ n, n ≤ (List.replicate 2400 rec0).length ∧
        q = min 1 ((n : ℚ) / max ((2400 : Nat) : ℚ) 1) := by
  have h := fetch_progress_c9 true
    [pageResp 1000 2400, pageResp 1000 2400, pageResp 400 2400]
    ⟨List.replicate 2400 rec0, 2400, 3, [(5 : ℚ)/12, (5 : ℚ)/6, 1]⟩ ?_
  · exact h
  · rw [fetch_all, fetchGo_cons_cont true _ _ 0 [] none [] rfl
        (by rw [firstListRows_pageResp, List.length_replicate]; decide),
      fetchGo_cons_cont true _ _ _ _ _ _ rfl
        (by rw [firstListRows_pageResp, List.length_replicate]; decide),
      fetchGo_cons_short true _ _ _ _ _ _ rfl
        (by rw [firstListRows_pageResp]; simp)
        (by rw [firstListRows_pageResp, List.length_replicate]; decide)]
    simp only [bumpReq, List.nil_append, List.append_assoc, firstListRows_pageResp]
    rw [← List.replicate_add, ← List.replicate_add]
    simp only [stepReports, tcUpd_some, tcUpd_none, metaCount_pageResp, Option.getD_some,
      List.length_replicate, List.length_append]
    norm_num [min_def, max_def]

theorem sum_coerce : ∀ l : List Record,
    (l.map coerceShare).sum = (l.filterMap shareVal).sum := by
  intro l
  induction l with
  | nil => rfl
  | cons r tl ih =>
    rw [List.map_cons, List.sum_cons, List.filterMap_cons]
    cases hs : shareVal r with
    | none =>
      rw [show coerceShare r = 0 from by rw [coerceShare, hs]; rfl, ih, zero_add]
    | some q =>
      rw [show coerceShare r = q from by rw [coerceShare, hs]; rfl, List.sum_cons, ih]

/-- C6: in every summary row, projectCount counts every classified row of
the group — also those whose federal share is missing or unparsable — while
totalFederalShareObligated is the sum of the parseable shares only: rows
with a missing or unparsable share contribute exactly zero to the sum and
are never dropped (source lines 105-113). -/
theorem summarize_coercion_c6 :
    ∀ (df : List Record) (incl excl : List String) (rows : List SummaryRow),
      summarize df incl excl = SummarizeOutput.table rows →
      ∀ g ∈ rows,
        g.projectCount =
          ((df.filter (fun r => is_water_utility r incl excl)).filter
            (fun r => keyOf r = (g.state, g.applicantId, g.applicantName))).length ∧
        g.totalFederalShareObligated =
          (((df.filter (fun r => is_water_utility r incl excl)).filter
            (fun r => keyOf r = (g.state, g.applicantId, g.applicantName))).filterMap
              shareVal).sum := by
  intro df incl excl rows hsum g hg
  rw [summarize] at hsum
  by_cases hdf : df.isEmpty
  · rw [if_pos hdf] at hsum
    cases hsum
  · rw [if_neg hdf] at hsum
    obtain rfl := SummarizeOutput.table.inj hsum
    simp only [summarizeTable] at hg
    obtain ⟨k, hk, rfl⟩ := List.mem_map.1 ((List.mem_insertionSort rowLe2).1 hg)
    have hkey : ((mkRow (df.filter (fun r => is_water_utility r incl excl)) k).state,
        (mkRow (df.filter (fun r => is_water_utility r incl excl)) k).applicantId,
        (mkRow (df.filter (fun r => is_water_utility r incl excl)) k).applicantName) = k := rfl
    rw [hkey]
    exact ⟨rfl, sum_coerce _⟩

/-- C6 witness: two rows of one group with federal shares "100" and
"not-a-number" produce projectCount 2 and total 100 — the unparsable share
contributes zero and the row still counts. -/
theorem summarize_coercion_c6_witness :
    summarize [rA, rB] ["water"] [] = SummarizeOutput.table
      [⟨"CA", "A1", some "Alpha Water", 2, 100, some "2020-01-01", some "2020-01-01"⟩] ∧
    (⟨"CA", "A1", some "Alpha Water", 2, 100, some "2020-01-01",
        some "2020-01-01"⟩ : SummaryRow).projectCount =
      (([rA, rB].filter (fun r => is_water_utility r ["water"] [])).filter
        (fun r => keyOf r = ("CA", "A1", some "Alpha Water"))).length ∧
    (⟨"CA", "A1", some "Alpha Water", 2, 100, some "2020-01-01",
        some "2020-01-01"⟩ : SummaryRow).totalFederalShareObligated =
      ((([rA, rB].filter (fun r => is_water_utility r ["water"] [])).filter
        (fun r => keyOf r = ("CA", "A1", some "Alpha Water"))).filterMap shareVal).sum := by
  have hconc : summarize [rA, rB] ["water"] [] = SummarizeOutput.table
      [⟨"CA", "A1", some "Alpha Water", 2, 100, some "2020-01-01", some "2020-01-01"⟩] :=
    of_decide_eq_true (by with_unfolding_all rfl)
  refine ⟨hconc, ?_⟩
  exact summarize_coercion_c6 [rA, rB] ["water"] [] _ hconc _ (List.mem_singleton.2 rfl)

theorem optNameLe_total (a b : Option String) : optNameLe a b ∨ optNameLe b a := by
  cases a with
  | none => cases b with
    | none => left; trivial
    | some y => right; trivial
  | some x => cases b with
    | none => left; trivial
    | some y => exact le_total x y

theorem optNameLe_trans (a b c : Option String) :
    optNameLe a b → optNameLe b c → optNameLe a c := by
  cases a with
  | none => cases b with
    | none => cases c with
      | none => intro _ _; trivial
      | some z => intro _ h2; simp [optNameLe] at h2
    | some y => cases c with
      | none => intro h1 _; simp [optNameLe] at h1
      | some z => intro h1 _; simp [optNameLe] at h1
  | some x => cases b with
    | none => cases c with
      | none => intro _ _; trivial
      | some z => intro _ h2; simp [optNameLe] at h2
    | some y => cases c with
      | none => intro _ _; trivial
      | some z => intro h1 h2; exact le_trans h1 h2

theorem optNameLt_of_le_of_ne (a b : Option String) :
    optNameLe a b → a ≠ b → optNameLt a b := by
  cases a with
  | none => cases b with
    | none => intro _ hne; exact absurd rfl hne
    | some y => intro h1 _; exact absurd h1 (by simp [optNameLe])
  | some x => cases b with
    | none => intro _ _; trivial
    | some y =>
      intro h1 hne
      exact lt_of_le_of_ne h1 (fun he => hne (by rw [he]))

theorem keyLe_total (a b : String × String × Option String) : keyLe a b ∨ keyLe b a := by
  rcases lt_trichotomy a.1 b.1 with h1 | h1 | h1
  · exact Or.inl (Or.inl h1)
  · rcases lt_trichotomy a.2.1 b.2.1 with h2 | h2 | h2
    · exact Or.inl (Or.inr ⟨h1, Or.inl h2⟩)
    · rcases optNameLe_total a.2.2 b.2.2 with h3 | h3
      · exact Or.inl (Or.inr ⟨h1, Or.inr ⟨h2, h3⟩⟩)
      · exact Or.inr (Or.inr ⟨h1.symm, Or.inr ⟨h2.symm, h3⟩⟩)
    · exact Or.inr (Or.inr ⟨h1.symm, Or.inl h2⟩)
  · exact Or.inr (Or.inl h1)

theorem keyLe_trans (a b c : String × String × Option String) :
    keyLe a b → keyLe b c → keyLe a c := by
  rintro (h1 | ⟨he1, h2⟩) (g1 | ⟨ge1, g2⟩)
  · exact Or.inl (lt_trans h1 g1)
  · exact Or.inl (ge1 ▸ h1)
  · exact Or.inl (he1 ▸ g1)
  · refine Or.inr ⟨he1.trans ge1, ?_⟩
    rcases h2 with h2 | ⟨he2, h3⟩
    · rcases g2 with g2 | ⟨ge2, g3⟩
      · exact Or.inl (lt_trans h2 g2)
      · exact Or.inl (ge2 ▸ h2)
    · rcases g2 with g2 | ⟨ge2, g3⟩
      · exact Or.inl (he2 ▸ g2)
      · exact Or.inr ⟨he2.trans ge2, optNameLe_trans _ _ _ h3 g3⟩

theorem keyLt_of_le_of_ne (a b : String × String × Option String) :
    keyLe a b → a ≠ b → keyLt a b := by
  rintro (h1 | ⟨he1, h2⟩) hne
  · exact Or.inl h1
  · refine Or.inr ⟨he1, ?_⟩
    rcases h2 with h2 | ⟨he2, h3⟩
    · exact Or.inl h2
    · refine Or.inr ⟨he2, optNameLt_of_le_of_ne _ _ h3 ?_⟩
      intro he3
      exact hne (Prod.ext he1 (Prod.ext he2 he3))

theorem firstKeys_nodup : ∀ l : List (String × String × Option String),
    (firstKeys l).Nodup := by
  intro l
  induction l with
  | nil => exact List.nodup_nil
  | cons k ks ih =>
    rw [firstKeys, List.nodup_cons]
    constructor
    · intro hmem
      exact absurd (List.of_mem_filter hmem) (by simp)
    · exact List.Nodup.filter _ ih

theorem rkey_mkRow (m : List Record) (k : String × String × Option String) :
    rkey (mkRow m k) = k := rfl

theorem rowOrder_of_le2_of_keyLt (a b : SummaryRow) :
    rowLe2 a b → keyLt (rkey a) (rkey b) → rowOrder a b := by
  rintro (h1 | ⟨he1, hle⟩) hk
  · exact Or.inl h1
  · rcases hk with hk1 | ⟨_, hk2⟩
    · exact Or.inl hk1
    · refine Or.inr ⟨he1, ?_⟩
      rcases lt_or_eq_of_le hle with hlt | heq
      · exact Or.inl hlt
      · exact Or.inr ⟨heq.symm, hk2⟩

theorem rowOrder_of_not_le2 (a b : SummaryRow) : ¬ rowLe2 a b → rowOrder b a := by
  intro h
  rw [rowLe2, not_or] at h
  obtain ⟨h1, h2⟩ := h
  rcases lt_or_eq_of_le (le_of_not_lt h1) with hlt | heq
  · exact Or.inl hlt
  · refine Or.inr ⟨heq, Or.inl ?_⟩
    rw [not_and_or] at h2
    rcases h2 with h2 | h2
    · exact absurd heq.symm h2
    · exact lt_of_not_le h2

theorem le2_of_rowOrder (a b : SummaryRow) : rowOrder a b → rowLe2 a b := by
  rintro (h1 | ⟨he1, h2 | ⟨he2, _⟩⟩)
  · exact Or.inl h1
  · exact Or.inr ⟨he1, le_of_lt h2⟩
  · exact Or.inr ⟨he1, le_of_eq he2.symm⟩

theorem rowLe2_trans (a b c : SummaryRow) : rowLe2 a b → rowLe2 b c → rowLe2 a c := by
  rintro (h1 | ⟨he1, h2⟩) (g1 | ⟨ge1, g2⟩)
  · exact Or.inl (lt_trans h1 g1)
  · exact Or.inl (ge1 ▸ h1)
  · exact Or.inl (he1 ▸ g1)
  · exact Or.inr ⟨he1.trans ge1, le_trans g2 h2⟩

theorem pairwise_rowOrder_orderedInsert (x : SummaryRow) :
    ∀ s, List.Pairwise rowOrder s → (∀ z ∈ s, keyLt (rkey x) (rkey z)) →
      List.Pairwise rowOrder (List.orderedInsert rowLe2 x s) := by
  intro s
  induction s with
  | nil =>
    intro _ _
    exact List.pairwise_singleton _ _
  | cons y ys ih =>
    intro hs hx
    simp only [List.orderedInsert]
    by_cases hxy : rowLe2 x y
    · rw [if_pos hxy, List.pairwise_cons]
      refine ⟨?_, hs⟩
      intro w hw
      rcases List.mem_cons.1 hw with hwy | hw'
      · subst hwy
        exact rowOrder_of_le2_of_keyLt x w hxy (hx w (List.mem_cons_self _ _))
      · have hyw : rowOrder y w := List.rel_of_pairwise_cons hs hw'
        exact rowOrder_of_le2_of_keyLt x w
          (rowLe2_trans x y w hxy (le2_of_rowOrder y w hyw))
          (hx w (List.mem_cons_of_mem _ hw'))
    · rw [if_neg hxy, List.pairwise_cons]
      constructor
      · intro w hw
        rcases (List.mem_orderedInsert rowLe2).1 hw with hwx | hw'
        · rw [hwx]
          exact rowOrder_of_not_le2 x y hxy
        · exact List.rel_of_pairwise_cons hs hw'
      · exact ih (List.pairwise_cons.1 hs).2
          (fun z hz => hx z (List.mem_cons_of_mem _ hz))

theorem pairwise_rowOrder_insertionSort :
    ∀ l : List SummaryRow, List.Pairwise (fun a b => keyLt (rkey a) (rkey b)) l →
      List.Pairwise rowOrder (List.insertionSort rowLe2 l) := by
  intro l
  induction l with
  | nil =>
    intro _
    exact List.Pairwise.nil
  | cons a l ih =>
    intro hl
    simp only [List.insertionSort]
    apply pairwise_rowOrder_orderedInsert
    · exact ih (List.pairwise_cons.1 hl).2
    · intro z hz
      exact List.rel_of_pairwise_cons hl ((List.mem_insertionSort rowLe2).1 hz)

/-- C7 amended: the summary rows are sorted by state ascending, then
totalFederalShareObligated descending; ties on (state, total) are broken by
ascending (applicantId, applicantName) group-key order — groupby sorts the
group keys before the stable final sort — not by group-discovery order. -/
theorem summarize_sorted_c7 :
    ∀ (df : List Record) (incl excl : List String) (rows : List SummaryRow),
      summarize df incl excl = SummarizeOutput.table rows →
      List.Pairwise rowOrder rows := by
  intro df incl excl rows hsum
  rw [summarize] at hsum
  by_cases hdf : df.isEmpty
  · rw [if_pos hdf] at hsum
    cases hsum
  · rw [if_neg hdf] at hsum
    obtain rfl := SummarizeOutput.table.inj hsum
    simp only [summarizeTable]
    apply pairwise_rowOrder_insertionSort
    have hsorted : List.Pairwise keyLe
        (List.insertionSort keyLe
          (firstKeys ((df.filter (fun r => is_water_utility r incl excl)).map keyOf))) :=
      @List.sorted_insertionSort _ keyLe _ ⟨keyLe_total⟩ ⟨keyLe_trans⟩ _
    have hnodup : (List.insertionSort keyLe
        (firstKeys ((df.filter (fun r => is_water_utility r incl excl)).map keyOf))).Nodup :=
      ((List.perm_insertionSort keyLe _).symm).nodup (firstKeys_nodup _)
    have hklt : List.Pairwise keyLt
        (List.insertionSort keyLe
          (firstKeys ((df.filter (fun r => is_water_utility r incl excl)).map keyOf))) :=
      (hsorted.and hnodup).imp (fun hab => keyLt_of_le_of_ne _ _ hab.1 hab.2)
    exact List.Pairwise.map _ (fun a b hab => hab) hklt

/-- C7 counterexample: two groups in state CA with equal totals 100; the
Zeta group (applicantId B2) is discovered first in the input, yet the
output lists the Alpha group (applicantId A1) first, because groupby sorts
the group keys — so ties on (state, total) are NOT broken by
group-discovery order as the claim states. -/
theorem summarize_sorted_cex_c7 :
    summarize [rZ, rA] ["water"] [] = SummarizeOutput.table
      [⟨"CA", "A1", some "Alpha Water", 1, 100, some "2020-01-01", some "2020-01-01"⟩,
       ⟨"CA", "B2", some "Zeta Water", 1, 100, some "2020-01-02", some "2020-01-02"⟩] :=
  of_decide_eq_true (by with_unfolding_all rfl)

/-- C7 witness: the amended order realised on a concrete run. -/
theorem summarize_sorted_c7_witness :
    List.Pairwise rowOrder
      [⟨"CA", "A1", some "Alpha Water", 1, 100, some "2020-01-01", some "2020-01-01"⟩,
       ⟨"CA", "B2", some "Zeta Water", 1, 100, some "2020-01-02", some "2020-01-02"⟩] :=
  summarize_sorted_c7 [rZ, rA] ["water"] [] _
    (of_decide_eq_true (by with_unfolding_all rfl))
